import Mathlib

/-!
Verification of the spatial cache (`cache_provider`, src/C++/src/CacheProvider.cpp)
and the request router (`processor_node`, src/C++/src/ProcessorNode.cpp) of the
RequestServer game-server core, against its natural-language specification.

The C++ is shallowly embedded: machine maps become total functions into `Option`,
`std::vector` becomes `List`, coordinates become `Int`, owner/object ids become
`Nat`.  `dynamic_cast<updatable*>` success is the `upd` flag; `dynamic_cast
<map_obj*>` success is `pos = some _`.  The reentrant mutex holder
(`this->lock_holder`, a `std::thread::id`) is `Option Nat`, `none` standing for
the default-constructed `thread::id()` written by `unlock`.
-/

namespace RequestServer

/-- `map_obj`'s position rectangle: `{x, y, width, height}`. -/
structure MapPos where
  x : Int
  y : Int
  width : Int
  height : Int
deriving DecidableEq, Repr

/-- A cache object.  `base_obj` carries `{id, owner}`; `pos = some p` models a
`map_obj` (the `dynamic_cast<map_obj*>` succeeding), `upd = true` models the
`dynamic_cast<updatable*>` succeeding. -/
structure Obj where
  id : Nat
  owner : Nat
  upd : Bool
  pos : Option MapPos
deriving DecidableEq, Repr

/-- The fields `cache_provider::set_bounds` stores. -/
structure Bounds where
  start_x : Int
  start_y : Int
  end_x : Int
  end_y : Int
  width : Int
  height : Int
  los_radius : Int
deriving DecidableEq, Repr

/-- `cache_provider::set_bounds`: `end = start + extent`. -/
def set_bounds (start_x start_y width height los_radius : Int) : Bounds :=
  { start_x := start_x, start_y := start_y,
    end_x := start_x + width, end_y := start_y + height,
    width := width, height := height, los_radius := los_radius }

/-- A half-open rectangle `[sx, ex) x [sy, ey)` as the clamp helper passes it
around (the four by-reference coordinates of `cache_provider::clamp`). -/
structure Rect where
  sx : Int
  sy : Int
  ex : Int
  ey : Int
deriving DecidableEq, Repr

/-- State of one `cache_provider`: the id-indexed registry (`id_idx`), the
owner index (`owner_idx`, a hash map owner -> vector, so a key may be present
with an empty vector), the updatable vector (`updatable_idx`), the two-level
grid (`loc_idx`) and the tracked mutex holder (`lock_holder`). -/
structure Cache where
  bounds : Bounds
  id_idx : Nat → Option Obj
  owner_idx : Nat → Option (List Obj)
  updatable_idx : List Obj
  loc_idx : Int → Int → Option Obj
  lock_holder : Option Nat

/-- A freshly constructed cache: all indices empty, mutex free. -/
def emptyCache (b : Bounds) : Cache :=
  { bounds := b, id_idx := fun _ => none, owner_idx := fun _ => none,
    updatable_idx := [], loc_idx := fun _ _ => none, lock_holder := none }

/-- The integers of `[a, b)` in increasing order (one `for` loop index). -/
def intRange (a b : Int) : List Int :=
  (List.range (b - a).toNat).map (fun i : Nat => a + (i : Int))

/-- The cells covered by a `map_obj`: the double loop
`for x in [p.x, p.x + p.width) for y in [p.y, p.y + p.height)`. -/
def footprintCells (p : MapPos) : List (Int × Int) :=
  (intRange p.x (p.x + p.width)).flatMap
    (fun cx => (intRange p.y (p.y + p.height)).map (fun cy => (cx, cy)))

/-- `cache_provider::get_loc`. -/
def get_loc (s : Cache) (x y : Int) : Option Obj :=
  s.loc_idx x y

/-- `cache_provider::is_root_object`: `obj->x == x && obj->y == y`. -/
def is_root_object (o : Obj) (x y : Int) : Bool :=
  match o.pos with
  | some p => p.x == x && p.y == y
  | none => false

/-- `cache_provider::clamp`: each edge clamped independently, the lower edges
raised to `start`, the upper edges lowered to `end - 1` when `end_* >= this->end_*`. -/
def clampRect (b : Bounds) (sx sy ex ey : Int) : Rect :=
  { sx := if sx < b.start_x then b.start_x else sx,
    sy := if sy < b.start_y then b.start_y else sy,
    ex := if b.end_x ≤ ex then b.end_x - 1 else ex,
    ey := if b.end_y ≤ ey then b.end_y - 1 else ey }

/-- `cache_provider::lock`: acquire the mutex and record the caller as holder.
`tid` is the calling thread's id; the model applies the op at the moment the
acquisition completes. -/
def lock (s : Cache) (tid : Nat) : Cache :=
  { s with lock_holder := some tid }

/-- `cache_provider::unlock`: clear the holder (`thread::id()`), release. -/
def unlock (s : Cache) : Cache :=
  { s with lock_holder := none }

/-- `cache_provider::begin_update`: the region hint is accepted and ignored;
the whole-cache lock is taken. -/
def begin_update (s : Cache) (tid : Nat) (x y width height : Int) : Cache :=
  lock s tid

/-- `cache_provider::end_update`. -/
def end_update (s : Cache) : Cache :=
  unlock s

/-- The error `cache_provider::get_next_updatable` throws
(`sql::synchronization_exception`). -/
inductive CacheError
| synchronizationViolation
deriving DecidableEq, Repr

/-- `cache_provider::get_next_updatable`: throws unless the tracked holder is
the calling thread; else the `position`-th entry of `updatable_idx`, or
null past the end. -/
def get_next_updatable (s : Cache) (tid : Nat) (position : Nat) :
    Except CacheError (Option Obj) :=
  if s.lock_holder ≠ some tid then Except.error CacheError.synchronizationViolation
  else Except.ok (s.updatable_idx.get? position)

/-- `cache_provider::add_internal(base_obj*)`: store under the id, push onto
`owner_idx[owner]` (the `operator[]` default-constructs a missing entry, for
owner 0 too), and push onto `updatable_idx` when the updatable cast succeeds. -/
def add_internal_base (s : Cache) (o : Obj) : Cache :=
  { s with
    id_idx := fun i => if i = o.id then some o else s.id_idx i,
    owner_idx := fun w =>
      if w = o.owner then some (((s.owner_idx o.owner).getD []) ++ [o])
      else s.owner_idx w,
    updatable_idx := if o.upd then s.updatable_idx ++ [o] else s.updatable_idx }

/-- `cache_provider::add_internal(map_obj*)`: first scan every covered cell for
an occupant and return false touching nothing if one is found; otherwise write
the object into every covered cell and return true. -/
def add_internal_map (s : Cache) (o : Obj) (p : MapPos) : Bool × Cache :=
  if (footprintCells p).any (fun c => (s.loc_idx c.1 c.2).isSome) then
    (false, s)
  else
    (true, { s with loc_idx := fun x y =>
        if (x, y) ∈ footprintCells p then some o else s.loc_idx x y })

/-- `cache_provider::remove_internal(base_obj*)`: erase the id, and for a
non-zero owner erase the object from `owner_idx[owner]` — the `operator[]`
access default-constructs a missing entry, and an entry left empty is never
erased.  Owner-0 objects are not removed from the owner index at all.  The
updatable entry is erased when the cast succeeds. -/
def remove_internal_base (s : Cache) (o : Obj) : Cache :=
  { s with
    id_idx := fun i => if i = o.id then none else s.id_idx i,
    owner_idx :=
      if o.owner ≠ 0 then
        fun w => if w = o.owner then some (((s.owner_idx o.owner).getD []).erase o)
                 else s.owner_idx w
      else s.owner_idx,
    updatable_idx := if o.upd then s.updatable_idx.erase o else s.updatable_idx }

/-- `cache_provider::remove_internal(map_obj*)`: null out every covered cell,
unconditionally. -/
def remove_internal_map (s : Cache) (p : MapPos) : Cache :=
  { s with loc_idx := fun x y =>
      if (x, y) ∈ footprintCells p then none else s.loc_idx x y }

/-- Modelled from the spec: the `add` glue composing the two `add_internal`
overloads is declared in CacheProvider.h, which is not among the repository's
files.  Per §4.1, `addObject` "inserts into Registry, Owner Index, and (if
positioned) Grid.  Fails with `PlacementConflict` and leaves cache state
unchanged if any covered cell is already occupied": for a positioned object
the grid placement (`add_internal(map_obj*)`, from the source) is attempted
first and only on its success are the id/owner/updatable indices updated
(`add_internal(base_obj*)`, from the source); `false` is the
`PlacementConflict` outcome. -/
def add_object (s : Cache) (o : Obj) : Bool × Cache :=
  match o.pos with
  | some p =>
      match add_internal_map s o p with
      | (false, s1) => (false, s1)
      | (true, s1) => (true, add_internal_base s1 o)
  | none => (true, add_internal_base s o)

/-- Modelled from the spec: the `remove` glue is likewise only declared in
CacheProvider.h.  Per §4.1, `removeObject` "deletes from Registry, Owner Index
(if owned), and clears every covered Grid cell": the grid cells are cleared
(`remove_internal(map_obj*)`, from the source) for a positioned object, then
the index entries are removed (`remove_internal(base_obj*)`, from the source). -/
def remove_object (s : Cache) (o : Obj) : Cache :=
  remove_internal_base
    (match o.pos with
     | some p => remove_internal_map s p
     | none => s) o

/-- `unordered_map::emplace` keyed by the object's id: a later object with an
already-present key is dropped. -/
def emplace (acc : List (Nat × Obj)) (o : Obj) : List (Nat × Obj) :=
  if acc.any (fun e => e.1 == o.id) then acc else acc ++ [(o.id, o)]

/-- The cell-by-cell scan shared by the area queries: for each `cx` in `xs` and
`cy` in `ys` in loop order, the occupant that is its own root cell is emplaced. -/
def scanCells (s : Cache) (xs ys : List Int) : List (Nat × Obj) :=
  xs.foldl (fun acc cx =>
    ys.foldl (fun acc2 cy =>
      match s.loc_idx cx cy with
      | some o => if is_root_object o cx cy then emplace acc2 o else acc2
      | none => acc2) acc) []

/-- `cache_provider::get_by_id` (the deep copy is value semantics here). -/
def get_by_id (s : Cache) (search_id : Nat) : Option Obj :=
  s.id_idx search_id

/-- `cache_provider::get_at_location`. -/
def get_at_location (s : Cache) (x y : Int) : Option Obj :=
  s.loc_idx x y

/-- `cache_provider::get_in_area`: `end = pos + extent`, clamp, then
`for (; x < end_x; x++) for (y = end_y - height; y < end_y; y++)` — the inner
loop restarts at `end_y - height` (with the original `height`), not at the
clamped `y`. -/
def get_in_area (s : Cache) (x y width height : Int) : List (Nat × Obj) :=
  let c := clampRect s.bounds x y (x + width) (y + height)
  scanCells s (intRange c.sx c.ex) (intRange (c.ey - height) c.ey)

/-- `cache_provider::get_by_owner`: empty when the key is absent, else every
object of `owner_idx[owner]` emplaced by id. -/
def get_by_owner (s : Cache) (owner : Nat) : List (Nat × Obj) :=
  match s.owner_idx owner with
  | none => []
  | some l => l.foldl emplace []

/-- `unordered_set::insert`. -/
def insert_set (acc : List Nat) (w : Nat) : List Nat :=
  if acc.contains w then acc else acc ++ [w]

/-- The clamped scan square of the LOS queries: `start = (x, y) - los_radius`,
`end = (x, y) + los_radius`, then `cache_provider::clamp`. -/
def los_scan_rect (s : Cache) (x y : Int) : Rect :=
  clampRect s.bounds (x - s.bounds.los_radius) (y - s.bounds.los_radius)
    (x + s.bounds.los_radius) (y + s.bounds.los_radius)

/-- `cache_provider::get_users_with_los_at`: every occupied cell of the clamped
square contributes its occupant's owner when that owner is non-zero. -/
def get_users_with_los_at (s : Cache) (x y : Int) : List Nat :=
  let c := los_scan_rect s x y
  (intRange c.sx c.ex).foldl (fun acc cx =>
    (intRange c.sy c.ey).foldl (fun acc2 cy =>
      match s.loc_idx cx cy with
      | some o => if o.owner ≠ 0 then insert_set acc2 o.owner else acc2
      | none => acc2) acc) []

/-- `cache_provider::is_area_empty`: same loop shape as `get_in_area`,
true iff no scanned cell is occupied. -/
def is_area_empty (s : Cache) (x y width height : Int) : Bool :=
  let c := clampRect s.bounds x y (x + width) (y + height)
  (intRange c.sx c.ex).all fun cx =>
    (intRange (c.ey - height) c.ey).all fun cy => (s.loc_idx cx cy).isNone

/-- `cache_provider::is_location_in_los`: some scanned cell of the clamped
square holds a root-cell object of the given owner. -/
def is_location_in_los (s : Cache) (x y : Int) (owner : Nat) : Bool :=
  let c := los_scan_rect s x y
  (intRange c.sx c.ex).any fun cx =>
    (intRange c.sy c.ey).any fun cy =>
      match s.loc_idx cx cy with
      | some o => is_root_object o cx cy && o.owner == owner
      | none => false

/-- `cache_provider::is_location_in_bounds`. -/
def is_location_in_bounds (s : Cache) (x y width height : Int) : Bool :=
  decide (s.bounds.start_x ≤ x) && decide (s.bounds.start_y ≤ y) &&
  decide (x + width ≤ s.bounds.end_x) && decide (y + height ≤ s.bounds.end_y)

/-- `cache_provider::is_user_present`: `owner_idx.count(user_id) != 0` — an
entry with an empty vector still counts. -/
def is_user_present (s : Cache) (user_id : Nat) : Bool :=
  (s.owner_idx user_id).isSome

/-! ## The request router (`processor_node`, src/C++/src/ProcessorNode.cpp) -/

/-- `result_codes` (the header naming them is not among the repository's files;
the source distinguishes exactly these, all pairwise distinct, plus
handler-defined business codes). -/
inductive result_code
| success
| no_response
| retry_later
| invalid_request_type
| invalid_parameters
| business (n : Nat)
deriving DecidableEq, Repr

/-- `request_server::request_result`, the dispatch outcome handed back to the
transport. -/
inductive request_result
| success
| retry_later
| no_response
deriving DecidableEq, Repr

/-- `broker_node_down_exception`, the fatal condition `del_client` throws for
the broker's id. -/
inductive broker_down
| down
deriving DecidableEq, Repr

/-- Router state: connections are handles (`Nat`); `conn_state` is each
connection's `tcp_connection::state` identity word (0 initially);
`authenticated_clients` is the identity-keyed index of connection lists, under
its own lock; the two `*_types` predicates say which `(category << 8) | method`
keys the authenticated / unauthenticated handler tables hold (the per-worker
handler instances behave identically per type, so the tables reduce to key
sets). -/
structure NodeState where
  area_id : Nat
  conn_state : Nat → Nat
  authenticated_clients : Nat → Option (List Nat)
  authenticated_types : Nat → Bool
  unauthenticated_types : Nat → Bool

/-- `processor_node::add_client`: identity 0 returns at once; otherwise the
connection's state word is set and it is pushed onto the index entry
(`operator[]` default-constructs a missing entry). -/
def add_client (s : NodeState) (id conn : Nat) : NodeState :=
  if id = 0 then s
  else
    { s with
      conn_state := fun c => if c = conn then id else s.conn_state c,
      authenticated_clients := fun i =>
        if i = id then some (((s.authenticated_clients id).getD []) ++ [conn])
        else s.authenticated_clients i }

/-- `processor_node::del_client`: identity 0 returns at once (before the broker
check); the partition's own id throws `broker_node_down_exception`; otherwise
the connection is erased from the entry, which is dropped once empty.  The
connection's state word is not touched. -/
def del_client (s : NodeState) (id conn : Nat) : Except broker_down NodeState :=
  if id = 0 then Except.ok s
  else if id = s.area_id then Except.error broker_down.down
  else
    Except.ok
      (match s.authenticated_clients id with
       | none => s
       | some l =>
           let l' := l.erase conn
           { s with authenticated_clients := fun i =>
               if i = id then (if l'.isEmpty then none else some l')
               else s.authenticated_clients i })

/-- `processor_node::send`: the connections the notification is enqueued to —
every entry currently under the recipient id. -/
def send (s : NodeState) (recipient_id : Nat) : List Nat :=
  (s.authenticated_clients recipient_id).getD []

/-- `uint16 type = (category << 8) | method` for byte-sized inputs. -/
def type_key (category method : Nat) : Nat :=
  category * 256 + method

/-- The table-choice test of `processor_node::on_request`: the authenticated
table for a non-zero identity, the unauthenticated table otherwise. -/
def has_handler (s : NodeState) (id t : Nat) : Bool :=
  if id ≠ 0 then s.authenticated_types t else s.unauthenticated_types t

/-- What the chosen handler instance does with this request: `deserialize`
throws `read_past_end_exception`, or `process` throws
`sql::synchronization_exception`, or `process` returns a result code having
set the by-reference identity to `new_id`.  The handler is an external
collaborator (spec §6), so its behaviour is a parameter. -/
inductive handler_step
| deserialize_fail
| process_conflict
| process_ok (result : result_code) (new_id : Nat)
deriving DecidableEq, Repr

/-- What `on_request` wrote into the response stream: at most one result code,
and whether `serialize` appended the handler's payload. -/
structure response_stream where
  code : Option result_code
  payload_written : Bool
deriving DecidableEq, Repr

/-- `processor_node::on_request`: look the type key up in the table chosen by
the connection's current identity (else `invalid_request_type`); deserialize
(else `invalid_parameters`); process — a synchronization conflict returns
`retry_later` with nothing written; otherwise the result code is written, a
success appends the payload, `no_response` returns before the
identity-transition block, and finally a changed identity updates the
client index (0→id via `add_client`, id→0 via `del_client`, which may throw
for the broker id). -/
def on_request (s : NodeState) (conn category method : Nat) (h : handler_step) :
    request_result × response_stream × Except broker_down NodeState :=
  let authenticated_id := s.conn_state conn
  if has_handler s authenticated_id (type_key category method) = false then
    (request_result.success,
     { code := some result_code.invalid_request_type, payload_written := false },
     Except.ok s)
  else
    match h with
    | handler_step.deserialize_fail =>
        (request_result.success,
         { code := some result_code.invalid_parameters, payload_written := false },
         Except.ok s)
    | handler_step.process_conflict =>
        (request_result.retry_later,
         { code := none, payload_written := false },
         Except.ok s)
    | handler_step.process_ok result new_id =>
        let resp : response_stream :=
          { code := some result, payload_written := result == result_code.success }
        if result = result_code.no_response then
          (request_result.no_response, resp, Except.ok s)
        else if new_id ≠ authenticated_id then
          if new_id ≠ 0 then
            (request_result.success, resp, Except.ok (add_client s new_id conn))
          else
            (request_result.success, resp, del_client s authenticated_id conn)
        else
          (request_result.success, resp, Except.ok s)

/-! ## Mutation traces

A trace of cache operations, paired with the specification's ghost view of
"the objects currently in the cache, in stable insertion order": a successful
add appends, a remove erases the object, locking does not touch it. -/

/-- One externally visible cache mutation (the operations of §4.1 that change
state), plus the update-scope brackets.  `begin_upd` records the acquiring
thread; the region hint of `begin_update` is irrelevant to the model. -/
inductive CacheOp
| add (o : Obj)
| remove (o : Obj)
| begin_upd (tid : Nat)
| end_upd
deriving Repr

/-- Run a trace, carrying the ghost insertion-order list of live objects. -/
def run_live : Cache × List Obj → List CacheOp → Cache × List Obj
| p, [] => p
| (s, l), CacheOp.add o :: rest =>
    run_live ((add_object s o).2, if (add_object s o).1 then l ++ [o] else l) rest
| (s, l), CacheOp.remove o :: rest =>
    run_live (remove_object s o, l.erase o) rest
| (s, l), CacheOp.begin_upd tid :: rest =>
    run_live (begin_update s tid 0 0 0 0, l) rest
| (s, l), CacheOp.end_upd :: rest =>
    run_live (end_update s, l) rest

/-! ## Helper lemmas -/

theorem mem_intRange {a b x : Int} : x ∈ intRange a b ↔ a ≤ x ∧ x < b := by
  unfold intRange
  constructor
  · intro hx
    obtain ⟨i, hi, rfl⟩ := List.mem_map.1 hx
    rw [List.mem_range] at hi
    omega
  · intro h
    refine List.mem_map.2 ⟨(x - a).toNat, ?_, ?_⟩
    · rw [List.mem_range]
      omega
    · omega

theorem mem_insert_set {acc : List Nat} {v w : Nat} :
    w ∈ insert_set acc v ↔ w ∈ acc ∨ w = v := by
  unfold insert_set
  split
  · next h =>
      have hv : v ∈ acc := by simpa using h
      constructor
      · exact Or.inl
      · rintro (h1 | rfl)
        · exact h1
        · exact hv
  · simp [List.mem_append]

theorem mem_foldl_insert {α : Type} (P : α → Prop) (f : List Nat → α → List Nat)
    (w : Nat) (hf : ∀ a e, w ∈ f a e ↔ w ∈ a ∨ P e) :
    ∀ (l : List α) (a : List Nat), w ∈ l.foldl f a ↔ w ∈ a ∨ ∃ e ∈ l, P e := by
  intro l
  induction l with
  | nil => intro a; simp
  | cons e t ih =>
      intro a
      rw [List.foldl_cons, ih, hf]
      simp only [List.mem_cons]
      constructor
      · rintro ((h | h) | ⟨x, hx, hP⟩)
        · exact Or.inl h
        · exact Or.inr ⟨e, Or.inl rfl, h⟩
        · exact Or.inr ⟨x, Or.inr hx, hP⟩
      · rintro (h | ⟨x, (rfl | hx), hP⟩)
        · exact Or.inl (Or.inl h)
        · exact Or.inl (Or.inr hP)
        · exact Or.inr ⟨x, hx, hP⟩

theorem filter_erase (p : Obj → Bool) (o : Obj) :
    ∀ l : List Obj, (l.erase o).filter p =
      if p o then (l.filter p).erase o else l.filter p := by
  intro l
  induction l with
  | nil => cases hp : p o <;> simp [hp]
  | cons a t ih =>
      by_cases hao : a = o
      · subst hao
        rw [List.erase_cons_head]
        cases hp : p a
        · rw [if_neg (by simp [hp]), List.filter_cons_of_neg (by simp [hp])]
        · rw [if_pos (by simp [hp]), List.filter_cons_of_pos (by simp [hp]),
            List.erase_cons_head]
      · have hbeq : (a == o) = false := by simpa using hao
        rw [List.erase_cons, if_neg (by simp [hbeq])]
        cases hp : p a
        · rw [List.filter_cons_of_neg (by simp [hp]),
            List.filter_cons_of_neg (by simp [hp]), ih]
        · rw [List.filter_cons_of_pos (by simp [hp]),
            List.filter_cons_of_pos (by simp [hp]), ih]
          cases hpo : p o
          · rw [if_neg (by simp [hpo]), if_neg (by simp [hpo])]
          · rw [if_pos (by simp [hpo]), if_pos (by simp [hpo]),
              List.erase_cons, if_neg (by simp [hbeq])]

/-! ## Concrete fixtures (the spec's scenario: Bounds (0,0,10,10), los_radius 2) -/

def bounds10 : Bounds := set_bounds 0 0 10 10 2

def emptyC : Cache := emptyCache bounds10

def objWall : Obj := { id := 1, owner := 1, upd := false, pos := some ⟨0, 0, 2, 2⟩ }

def objOverlap : Obj := { id := 2, owner := 2, upd := false, pos := some ⟨1, 1, 2, 2⟩ }

def cacheWithWall : Cache := (add_object emptyC objWall).2

def objOwnerZero : Obj := { id := 1, owner := 0, upd := false, pos := none }

def cacheOwnerZero : Cache := (add_object emptyC objOwnerZero).2

def objLow : Obj := { id := 1, owner := 1, upd := false, pos := some ⟨5, 2, 1, 1⟩ }

def cacheLow : Cache := (add_object emptyC objLow).2

def objAbsent : Obj := { id := 1, owner := 7, upd := false, pos := none }

/-! ## The claims -/

/-- C1: for every positioned object whose rectangle overlaps an already
occupied cell, `addObject` fails with PlacementConflict (`false`), the cache
state is unchanged, and every query — `getById`, `getAtLocation`, `getInArea`,
`getByOwner`, `getNextUpdatable` — answers exactly as before the failed call;
no Grid cell, Registry entry or Owner Index entry changes. -/
theorem c1_placement_conflict_atomic (s : Cache) (o : Obj) (p : MapPos)
    (hpos : o.pos = some p)
    (hconf : (footprintCells p).any (fun c => (s.loc_idx c.1 c.2).isSome) = true) :
    add_object s o = (false, s) ∧
    (∀ i, get_by_id (add_object s o).2 i = get_by_id s i) ∧
    (∀ x y, get_at_location (add_object s o).2 x y = get_at_location s x y) ∧
    (∀ x y w h, get_in_area (add_object s o).2 x y w h = get_in_area s x y w h) ∧
    (∀ w, get_by_owner (add_object s o).2 w = get_by_owner s w) ∧
    (∀ tid i, get_next_updatable (add_object s o).2 tid i = get_next_updatable s tid i) ∧
    (∀ x y, (add_object s o).2.loc_idx x y = s.loc_idx x y) ∧
    (∀ i, (add_object s o).2.id_idx i = s.id_idx i) ∧
    (∀ w, (add_object s o).2.owner_idx w = s.owner_idx w) := by
  have hmain : add_object s o = (false, s) := by
    simp [add_object, hpos, add_internal_map, hconf]
  exact ⟨hmain, fun i => by rw [hmain], fun x y => by rw [hmain],
    fun x y w h => by rw [hmain], fun w => by rw [hmain],
    fun tid i => by rw [hmain], fun x y => by rw [hmain],
    fun i => by rw [hmain], fun w => by rw [hmain]⟩

/-- Witness for C1: with `objWall` at (0,0,2,2) placed, adding `objOverlap` at
(1,1,2,2) — whose footprint shares cell (1,1) — fails and returns the cache
unchanged. -/
theorem c1_placement_conflict_atomic_witness :
    add_object cacheWithWall objOverlap = (false, cacheWithWall) :=
  (c1_placement_conflict_atomic cacheWithWall objOverlap ⟨1, 1, 2, 2⟩ rfl
    (by decide)).1

/-- C2 (code divergence): adding the unowned object `{id 1, owner 0}` puts it
into the Owner Index under key 0 — the claim says an object is in the Owner
Index only for a non-zero owner — and after removing it the Registry entry is
gone while the Owner Index entry under 0 still holds it, so the Owner Index
holds an entry for an object that is not in the Registry. -/
theorem c2_owner_zero_divergence :
    cacheOwnerZero.owner_idx 0 = some [objOwnerZero] ∧
    get_by_id cacheOwnerZero 1 = some objOwnerZero ∧
    get_by_id (remove_object cacheOwnerZero objOwnerZero) 1 = none ∧
    (remove_object cacheOwnerZero objOwnerZero).owner_idx 0 = some [objOwnerZero] ∧
    is_user_present (remove_object cacheOwnerZero objOwnerZero) 0 = true := by
  exact ⟨rfl, rfl, rfl, rfl, rfl⟩

/-- C3 (code divergence): with the sole object `objLow` rooted at (5,2) and
Bounds (0,0,10,10), `getInArea(5,5,1,10)` returns that object although its
root cell (5,2) is outside the rectangle [5,6) x [5,9) obtained by clamping
[5,6) x [5,15) to Bounds — the inner scan restarts at `end_y - height = -1`
instead of the clamped lower edge 5. -/
theorem c3_area_scan_divergence :
    get_in_area cacheLow 5 5 1 10 = [(1, objLow)] ∧
    objLow.pos = some ⟨5, 2, 1, 1⟩ ∧
    ¬((5 : Int) ≤ 2 ∧ (2 : Int) < 5 + 4) := by
  exact ⟨by decide, rfl, by decide⟩

/-- C4 (code divergence): the rectangle (5,5,1,10) clamps to (5,5,1,4) under
the code's own per-axis clamp, yet `getInArea(5,5,1,10)` and
`getInArea(5,5,1,4)` differ on `cacheLow`: the former scans the shifted band
y in [-1,9) and finds the object rooted at (5,2), the latter scans [5,9) and
does not. -/
theorem c4_clamp_divergence :
    clampRect bounds10 5 5 (5 + 1) (5 + 10) = { sx := 5, sy := 5, ex := 6, ey := 9 } ∧
    get_in_area cacheLow 5 5 1 10 = [(1, objLow)] ∧
    get_in_area cacheLow 5 5 1 4 = [] := by
  exact ⟨by decide, by decide, by decide⟩

/-- C9 (code divergence): removing the absent object `{id 1, owner 7}` from
an empty cache is not observation-free: `remove_internal`'s
`owner_idx[object->owner]` access default-constructs an entry, so
`isOwnerPresent(7)` flips from false to true (while `getByOwner(7)` still
answers empty). -/
theorem c9_remove_absent_divergence :
    is_user_present emptyC 7 = false ∧
    is_user_present (remove_object emptyC objAbsent) 7 = true ∧
    (remove_object emptyC objAbsent).owner_idx 7 = some [] ∧
    get_by_owner (remove_object emptyC objAbsent) 7 = [] ∧
    get_by_owner emptyC 7 = [] := by
  exact ⟨rfl, rfl, rfl, rfl, rfl⟩

/-! ## Router fixtures -/

/-- A fresh node: every connection unauthenticated, the index empty, every
type key registered in both handler tables. -/
def nodeFresh : NodeState :=
  { area_id := 9, conn_state := fun _ => 0, authenticated_clients := fun _ => none,
    authenticated_types := fun _ => true, unauthenticated_types := fun _ => true }

/-- A node where connection 7 is authenticated as identity 42. -/
def nodeAuth42 : NodeState :=
  { area_id := 9, conn_state := fun c => if c = 7 then 42 else 0,
    authenticated_clients := fun i => if i = 42 then some [7] else none,
    authenticated_types := fun _ => true, unauthenticated_types := fun _ => true }

/-- The router state after connection 7's handler clears identity 42 to 0 with
a Success result. -/
def nodeAfterLogout : NodeState :=
  match (on_request nodeAuth42 7 0 0 (handler_step.process_ok result_code.success 0)).2.2 with
  | Except.ok s => s
  | Except.error _ => nodeAuth42

/-- C6 counterexample: the claim fails at two concrete inputs.  (a) On a fresh
node, a handler that sets identity 0→42 but returns the no-response code
leaves the router state byte-for-byte unchanged — the connection is neither
marked identity 42 nor registered in the index (`send 42` delivers to nobody)
because the dispatch returns before the identity-transition block.  (b) A
handler that clears identity 42→0 with a Success result deregisters the
connection from the index, but the connection's stored identity is still 42
afterwards, not 0 as claimed. -/
theorem c6_counterexample :
    (on_request nodeFresh 5 0 0
        (handler_step.process_ok result_code.no_response 42)).2.2 = Except.ok nodeFresh ∧
    nodeFresh.conn_state 5 = 0 ∧
    send nodeFresh 42 = [] ∧
    nodeAfterLogout.conn_state 7 = 42 ∧
    send nodeAfterLogout 42 = [] := by
  exact ⟨rfl, rfl, rfl, rfl, rfl⟩

/-- C6 amended: for every handler result code other than the no-response code,
before dispatch returns: on a 0→id transition the connection's stored identity
is id and it is registered in the client-authentication index (so it appears
in `send(id, ...)` fan-out); on an id→0 transition the connection (registered
at most once under that identity, and the identity not being the broker's
area id) is deregistered from the index — its stored identity, however,
remains the old id.  On the no-response code the dispatch returns before the
index update and nothing changes. -/
theorem c6_identity_transition_amended (s : NodeState) (conn category method : Nat)
    (result : result_code) (new_id : Nat)
    (hh : has_handler s (s.conn_state conn) (type_key category method) = true)
    (hnr : result ≠ result_code.no_response) :
    (s.conn_state conn = 0 → new_id ≠ 0 →
      (on_request s conn category method (handler_step.process_ok result new_id)).2.2 =
          Except.ok (add_client s new_id conn) ∧
        (add_client s new_id conn).conn_state conn = new_id ∧
        conn ∈ send (add_client s new_id conn) new_id) ∧
    (s.conn_state conn ≠ 0 → new_id = 0 → s.conn_state conn ≠ s.area_id →
      ((s.authenticated_clients (s.conn_state conn)).getD []).count conn ≤ 1 →
      ∃ s', (on_request s conn category method
              (handler_step.process_ok result new_id)).2.2 = Except.ok s' ∧
        conn ∉ (s'.authenticated_clients (s.conn_state conn)).getD [] ∧
        s'.conn_state conn = s.conn_state conn) := by
  constructor
  · intro h0 hid
    have hstep :
        (on_request s conn category method (handler_step.process_ok result new_id)).2.2 =
          Except.ok (add_client s new_id conn) := by
      simp only [on_request, hh]
      rw [if_neg (by simp), if_neg hnr, if_pos (by rw [h0]; exact hid), if_pos hid]
    refine ⟨hstep, ?_, ?_⟩
    · simp [add_client, hid]
    · simp [add_client, send, hid]
  · intro h0 hid harea hcount
    subst hid
    have hstep :
        (on_request s conn category method (handler_step.process_ok result 0)).2.2 =
          del_client s (s.conn_state conn) conn := by
      simp only [on_request, hh]
      rw [if_neg (by simp), if_neg hnr, if_pos (fun he => h0 he.symm),
        if_neg (by simp)]
    rw [hstep]
    unfold del_client
    rw [if_neg h0, if_neg harea]
    cases hcl : s.authenticated_clients (s.conn_state conn) with
    | none =>
        refine ⟨s, rfl, ?_, rfl⟩
        simp [hcl]
    | some l =>
        have hnot : conn ∉ l.erase conn := by
          intro hmem
          have := List.count_pos_iff.2 hmem
          rw [List.count_erase_self] at this
          rw [hcl] at hcount
          simp at hcount
          omega
        refine ⟨_, rfl, ?_, rfl⟩
        simp only [if_pos rfl]
        cases he : (l.erase conn).isEmpty
        · simpa [he] using hnot
        · simp [he]

/-- Witness for C6 amended: on the fresh node, a handler returning Success
with identity transition 0→42 registers connection 5 under 42 and marks it
identity 42. -/
theorem c6_identity_transition_amended_witness :
    (on_request nodeFresh 5 0 0 (handler_step.process_ok result_code.success 42)).2.2 =
        Except.ok (add_client nodeFresh 42 5) ∧
      (add_client nodeFresh 42 5).conn_state 5 = 42 ∧
      5 ∈ send (add_client nodeFresh 42 5) 42 :=
  (c6_identity_transition_amended nodeFresh 5 0 0 result_code.success 42 rfl
    (by decide)).1 rfl (by decide)

/-- C7: a handler's processing step signalling a synchronization conflict
makes the dispatch return the RetryLater outcome with no result code and no
payload written to the response, and the whole router state — in particular
the client-authentication index — unchanged. -/
theorem c7_retry_later (s : NodeState) (conn category method : Nat)
    (hh : has_handler s (s.conn_state conn) (type_key category method) = true) :
    on_request s conn category method handler_step.process_conflict =
      (request_result.retry_later,
       { code := none, payload_written := false }, Except.ok s) := by
  simp only [on_request, hh]
  rw [if_neg (by simp)]

/-- Witness for C7: a conflict on the fresh node returns RetryLater, writes
nothing, and leaves the state untouched. -/
theorem c7_retry_later_witness :
    on_request nodeFresh 5 0 0 handler_step.process_conflict =
      (request_result.retry_later,
       { code := none, payload_written := false }, Except.ok nodeFresh) :=
  c7_retry_later nodeFresh 5 0 0 rfl

/-- One `addClient`/`removeClient` call, for traces over the
client-authentication index. -/
inductive client_op
| cadd (id conn : Nat)
| cdel (id conn : Nat)
deriving DecidableEq, Repr

/-- Run a trace of index mutations; a `broker_node_down_exception` aborts it. -/
def run_clients : NodeState → List client_op → Except broker_down NodeState
| s, [] => Except.ok s
| s, client_op.cadd id conn :: rest => run_clients (add_client s id conn) rest
| s, client_op.cdel id conn :: rest =>
    match del_client s id conn with
    | Except.ok s' => run_clients s' rest
    | Except.error e => Except.error e

theorem add_client_zero_key (s : NodeState) (id conn : Nat)
    (h : s.authenticated_clients 0 = none) :
    (add_client s id conn).authenticated_clients 0 = none := by
  unfold add_client
  by_cases h0 : id = 0
  · rw [if_pos h0]
    exact h
  · rw [if_neg h0]
    show (if 0 = id then _ else s.authenticated_clients 0) = none
    rw [if_neg (fun he => h0 he.symm)]
    exact h

theorem del_client_zero_key (s : NodeState) (id conn : Nat) (s' : NodeState)
    (hdel : del_client s id conn = Except.ok s')
    (h : s.authenticated_clients 0 = none) :
    s'.authenticated_clients 0 = none := by
  unfold del_client at hdel
  by_cases h0 : id = 0
  · rw [if_pos h0] at hdel
    cases hdel
    exact h
  · rw [if_neg h0] at hdel
    by_cases ha : id = s.area_id
    · rw [if_pos ha] at hdel
      cases hdel
    · rw [if_neg ha] at hdel
      cases hcl : s.authenticated_clients id with
      | none =>
          rw [hcl] at hdel
          cases hdel
          exact h
      | some l =>
          rw [hcl] at hdel
          cases hdel
          show (if 0 = id then _ else s.authenticated_clients 0) = none
          rw [if_neg (fun he => h0 he.symm)]
          exact h

/-- C10: identity 0 is never a key of the client-authentication index:
`addClient(0, conn)` and `removeClient(0, conn)` leave the whole state
unchanged (no fatal broker condition is raised), and along every
`addClient`/`removeClient` trace started with no entry under 0, the entry
under 0 stays absent, so `send(0, ...)` delivers to no connection. -/
theorem c10_zero_identity (s : NodeState) (conn : Nat) (ops : List client_op) :
    add_client s 0 conn = s ∧
    del_client s 0 conn = Except.ok s ∧
    (s.authenticated_clients 0 = none →
      ∀ s', run_clients s ops = Except.ok s' →
        s'.authenticated_clients 0 = none ∧ send s' 0 = []) := by
  refine ⟨rfl, rfl, ?_⟩
  induction ops generalizing s with
  | nil =>
      intro h0 s' hs'
      cases hs'
      exact ⟨h0, by simp [send, h0]⟩
  | cons op rest ih =>
      intro h0 s' hs'
      cases op with
      | cadd id conn2 =>
          exact ih (add_client s id conn2) (add_client_zero_key s id conn2 h0) s' hs'
      | cdel id conn2 =>
          rw [run_clients] at hs'
          cases hdel : del_client s id conn2 with
          | ok s1 =>
              rw [hdel] at hs'
              exact ih s1 (del_client_zero_key s id conn2 s1 hdel h0) s' hs'
          | error e =>
              rw [hdel] at hs'
              cases hs'

/-- Witness for C10: a concrete trace — authenticate connection 5 as 42, then
remove it, then the guarded `addClient(0, 9)` — keeps identity 0 out of the
index and `send(0, ...)` empty. -/
theorem c10_zero_identity_witness :
    add_client nodeFresh 0 5 = nodeFresh ∧
    del_client nodeFresh 0 5 = Except.ok nodeFresh ∧
    (nodeFresh.authenticated_clients 0 = none →
      ∀ s', run_clients nodeFresh
          [client_op.cadd 42 5, client_op.cdel 42 5, client_op.cadd 0 9] =
            Except.ok s' →
        s'.authenticated_clients 0 = none ∧ send s' 0 = []) :=
  c10_zero_identity nodeFresh 5
    [client_op.cadd 42 5, client_op.cdel 42 5, client_op.cadd 0 9]

/-! ## C5: the updatable iterator -/

/-- Along every trace, the code's `updatable_idx` equals the updatable-capable
objects of the ghost insertion-order list, in order: add pushes at the back
and remove erases the first (only) occurrence, on both sides. -/
theorem run_live_updatable :
    ∀ (ops : List CacheOp) (s : Cache) (l : List Obj),
      s.updatable_idx = l.filter (fun o => o.upd) →
      (run_live (s, l) ops).1.updatable_idx =
        (run_live (s, l) ops).2.filter (fun o => o.upd) := by
  intro ops
  induction ops with
  | nil => intro s l h; exact h
  | cons op rest ih =>
      intro s l h
      cases op with
      | add o =>
          rw [run_live]
          apply ih
          cases hp : o.pos with
          | none =>
              simp only [add_object, hp, add_internal_base]
              cases hu : o.upd <;> simp [hu, h]
          | some p =>
              by_cases hc :
                  (footprintCells p).any (fun c => (s.loc_idx c.1 c.2).isSome) = true
              · simp [add_object, hp, add_internal_map, hc, h]
              · simp only [add_object, hp, add_internal_map, if_neg hc,
                  add_internal_base]
                cases hu : o.upd <;> simp [hu, h]
      | remove o =>
          rw [run_live]
          apply ih
          rw [filter_erase]
          cases hp : o.pos <;>
            · simp only [remove_object, hp, remove_internal_map, remove_internal_base]
              cases hu : o.upd <;> simp [hu, h]
      | begin_upd tid =>
          rw [run_live]
          apply ih
          simpa [begin_update, lock] using h
      | end_upd =>
          rw [run_live]
          apply ih
          simpa [end_update, unlock] using h

/-- C5: along every mutation trace from a fresh cache, `getNextUpdatable`
fails with the SynchronizationViolation error exactly when the calling thread
is not the tracked holder of the guard, and when the caller does hold it, it
returns the index-th object carrying the Updatable capability in stable
insertion order — none past the end. -/
theorem c5_get_next_updatable (b : Bounds) (ops : List CacheOp) (tid position : Nat) :
    (get_next_updatable (run_live (emptyCache b, []) ops).1 tid position =
        Except.error CacheError.synchronizationViolation ↔
      (run_live (emptyCache b, []) ops).1.lock_holder ≠ some tid) ∧
    ((run_live (emptyCache b, []) ops).1.lock_holder = some tid →
      get_next_updatable (run_live (emptyCache b, []) ops).1 tid position =
        Except.ok
          (((run_live (emptyCache b, []) ops).2.filter (fun o => o.upd)).get?
            position)) := by
  have hupd := run_live_updatable ops (emptyCache b) [] rfl
  constructor
  · unfold get_next_updatable
    by_cases h : (run_live (emptyCache b, []) ops).1.lock_holder = some tid
    · rw [if_neg (by simp [h])]
      simp [h]
    · rw [if_pos (by simp [h])]
      simp [h]
  · intro h
    unfold get_next_updatable
    rw [if_neg (by simp [h]), hupd]

def objUpd : Obj := { id := 3, owner := 1, upd := true, pos := none }

/-- Witness for C5: after `beginUpdate` by thread 3 and one add of an
updatable object, thread 3's `getNextUpdatable(0)` returns that object. -/
theorem c5_get_next_updatable_witness :
    (run_live (emptyCache bounds10, [])
        [CacheOp.begin_upd 3, CacheOp.add objUpd]).1.lock_holder = some 3 ∧
    get_next_updatable
        (run_live (emptyCache bounds10, [])
          [CacheOp.begin_upd 3, CacheOp.add objUpd]).1 3 0 =
      Except.ok (some objUpd) := by
  refine ⟨rfl, ?_⟩
  exact (c5_get_next_updatable bounds10
    [CacheOp.begin_upd 3, CacheOp.add objUpd] 3 0).2 rfl

/-! ## C8: owners with line of sight -/

/-- Membership in `get_users_with_los_at`: exactly the non-zero owners
occupying some cell of the clamped half-open scan square. -/
theorem mem_get_users_with_los_at (s : Cache) (x y : Int) (w : Nat) :
    w ∈ get_users_with_los_at s x y ↔
      w ≠ 0 ∧ ∃ cx cy : Int,
        ((los_scan_rect s x y).sx ≤ cx ∧ cx < (los_scan_rect s x y).ex) ∧
        ((los_scan_rect s x y).sy ≤ cy ∧ cy < (los_scan_rect s x y).ey) ∧
        ∃ o : Obj, s.loc_idx cx cy = some o ∧ o.owner = w := by
  have hstep : ∀ (cx cy : Int) (a : List Nat),
      w ∈ (match s.loc_idx cx cy with
           | some o => if o.owner ≠ 0 then insert_set a o.owner else a
           | none => a) ↔
        w ∈ a ∨ (w ≠ 0 ∧ ∃ o : Obj, s.loc_idx cx cy = some o ∧ o.owner = w) := by
    intro cx cy a
    cases hl : s.loc_idx cx cy with
    | none => simp
    | some o =>
        dsimp only
        by_cases ho : o.owner = 0
        · rw [if_neg (by simp [ho])]
          constructor
          · exact Or.inl
          · rintro (hmem | ⟨hw, o', ho', rfl⟩)
            · exact hmem
            · cases ho'
              exact absurd ho hw
        · rw [if_pos ho, mem_insert_set]
          constructor
          · rintro (hmem | rfl)
            · exact Or.inl hmem
            · exact Or.inr ⟨ho, o, rfl, rfl⟩
          · rintro (hmem | ⟨hw, o', ho', howner⟩)
            · exact Or.inl hmem
            · cases ho'
              exact Or.inr howner.symm
  simp only [get_users_with_los_at]
  rw [mem_foldl_insert
      (fun cx => ∃ cy ∈ intRange (los_scan_rect s x y).sy (los_scan_rect s x y).ey,
        w ≠ 0 ∧ ∃ o : Obj, s.loc_idx cx cy = some o ∧ o.owner = w)
      _ w
      (fun a cx => mem_foldl_insert
        (fun cy => w ≠ 0 ∧ ∃ o : Obj, s.loc_idx cx cy = some o ∧ o.owner = w)
        _ w (fun a2 cy => hstep cx cy a2)
        (intRange (los_scan_rect s x y).sy (los_scan_rect s x y).ey) a)
      (intRange (los_scan_rect s x y).sx (los_scan_rect s x y).ex) []]
  simp only [List.not_mem_nil, false_or, mem_intRange]
  constructor
  · rintro ⟨cx, hcx, cy, hcy, hw, ho⟩
    exact ⟨hw, cx, cy, hcx, hcy, ho⟩
  · rintro ⟨hw, cx, cy, hcx, hcy, ho⟩
    exact ⟨cx, hcx, cy, hcy, hw, ho⟩

def objEdge : Obj := { id := 1, owner := 7, upd := false, pos := some ⟨7, 5, 1, 1⟩ }

def cacheEdge : Cache := (add_object emptyC objEdge).2

/-- C8 counterexample: owner 7's one-cell object occupies (7,5), at distance
exactly `los_radius = 2` from (5,5) on the x axis and 0 on the y axis — within
the radius on each axis — yet `getOwnersWithLOSAt(5,5)` returns the empty set:
the scan is the half-open square `[x-r, x+r)`, excluding the positive edge. -/
theorem c8_counterexample :
    cacheEdge.loc_idx 7 5 = some objEdge ∧
    objEdge.owner = 7 ∧
    ((7 : Int) - 5).natAbs ≤ 2 ∧ ((5 : Int) - 5).natAbs ≤ 2 ∧
    bounds10.los_radius = 2 ∧
    get_users_with_los_at cacheEdge 5 5 = [] := by decide

def objCenter : Obj := { id := 1, owner := 7, upd := false, pos := some ⟨5, 5, 1, 1⟩ }

def cacheCenter : Cache := (add_object emptyC objCenter).2

/-- C8 amended: `getOwnersWithLOSAt(x, y)` contains an owner w exactly when w
is non-zero and some object owned by w occupies a cell of the half-open
square `[x-r, x+r) x [y-r, y+r)` clamped to Bounds (offsets -r .. r-1: the
positive edge at distance exactly r is excluded); the claim's concrete
instance stands: with Bounds (0,0,10,10), los_radius 2 and
`{id 1, owner 7, (5,5,1,1)}` added, `getOwnersWithLOSAt(6,6) = {7}`. -/
theorem c8_los_owners_amended :
    (∀ (s : Cache) (x y : Int) (w : Nat),
      w ∈ get_users_with_los_at s x y ↔
        w ≠ 0 ∧ ∃ cx cy : Int,
          ((los_scan_rect s x y).sx ≤ cx ∧ cx < (los_scan_rect s x y).ex) ∧
          ((los_scan_rect s x y).sy ≤ cy ∧ cy < (los_scan_rect s x y).ey) ∧
          ∃ o : Obj, s.loc_idx cx cy = some o ∧ o.owner = w) ∧
    get_users_with_los_at cacheCenter 6 6 = [7] :=
  ⟨mem_get_users_with_los_at, by decide⟩

/-- Witness for C8 amended: owner 7 is a member of the (6,6) query's result
on `cacheCenter`, through the characterization at the concrete cell (5,5). -/
theorem c8_los_owners_amended_witness :
    7 ∈ get_users_with_los_at cacheCenter 6 6 :=
  (c8_los_owners_amended.1 cacheCenter 6 6 7).2
    ⟨by decide, 5, 5, ⟨by decide, by decide⟩, ⟨by decide, by decide⟩,
      objCenter, by decide, by decide⟩

end RequestServer
